import Mathlib

/-!
# Verification of the LINE content-script message/receipt synchronization engine

This development is a shallow embedding of `src/puppet/src/contentscript.js`
(class `MautrixController`).  Pure functions of the script are translated to
Lean functions; the stateful message-list observer (`addMsgListObserver`) is
translated to an explicit state machine whose steps are the settlements of the
tracked parse promises, run on the single JS event loop.

Conventions of the embedding:
* JS numbers that hold message IDs are modelled as `Int` (they are produced by
  the unary `+` on `data-local-id` attributes); digit-run parsing
  (`Number.parseInt` on a match of `/\d+/`) is modelled as exact natural-number
  parsing.
* `null`/`undefined`-able values are `Option`s.  JS `x || null` on a number is
  `if x = 0 then none else some x`; the numeric coercion of `null` in
  comparisons is `Option.getD · 0`.
* DOM elements are represented only by the attributes/classes the script
  reads from them.
* Thrown JS exceptions are `Except.error`.
-/

namespace Contentscript

/-- `ChatTypeEnum` (contentscript.js line 86). -/
inductive ChatTypeEnum where
  | DIRECT
  | GROUP
  | ROOM
deriving DecidableEq, Repr

/-- `MemberInfo` (the `member_info` object built by `_tryParseMemberEvent`). -/
structure MemberInfo where
  invited : Bool
  joined : Bool
  left : Bool
deriving DecidableEq, Repr

/-- `ImageInfo` (the `image` object built by `_parseMessage`). -/
structure ImageInfo where
  url : String
  is_sticker : Bool
  is_animated : Bool
deriving DecidableEq, Repr

/-- `Participant` (sender objects; only the fields the engine stores). -/
structure Participant where
  name : String
  avatar : Option String
  pid : Option String
deriving DecidableEq, Repr

/-- `MessageData` (typedef at contentscript.js lines 173-184): the message
record delivered to the backend.  Fields that are absent on a given JS object
are `none`. -/
structure MessageData where
  id : Int
  timestamp : Option Int
  is_outgoing : Bool
  sender : Option Participant
  html : Option String
  image : Option ImageInfo
  member_info : Option MemberInfo
  receipt_count : Option Nat
deriving DecidableEq, Repr

/-- A `MessageData` with only the `id` set, as at the start of `_parseMessage`
before optional fields are filled in. -/
def mkMsg (id : Int) : MessageData :=
  ⟨id, none, false, none, none, none, none, none⟩

/-- `getChatType` (contentscript.js lines 118-129): `switch` on `id.charAt(0)`;
`charAt(0)` of the empty string is `""`, which falls to the `default` branch
that throws. -/
def getChatType (id : String) : Except String ChatTypeEnum :=
  match id.data with
  | [] => Except.error ("Invalid chat ID: " ++ id)
  | c :: _ =>
    if c = 'u' then Except.ok ChatTypeEnum.DIRECT
    else if c = 'c' then Except.ok ChatTypeEnum.GROUP
    else if c = 'r' then Except.ok ChatTypeEnum.ROOM
    else Except.error ("Invalid chat ID: " ++ id)

/-- The first maximal run of decimal digits in a character list: the JS
`text.match(/\d+/)`, returning the matched characters. -/
def firstDigitRun : List Char → Option (List Char)
  | [] => none
  | c :: rest =>
    if c.isDigit then some (c :: rest.takeWhile Char.isDigit)
    else firstDigitRun rest

/-- Numeric value of a digit run, as `Number.parseInt` computes it on a
string of decimal digits. -/
def digitsVal (l : List Char) : Nat :=
  l.foldl (fun acc c => acc * 10 + (c.toNat - '0'.toNat)) 0

/-- `_getReceiptCount` (contentscript.js lines 577-580):
`const match = receipt.innerText.match(/\d+/)` followed by
`Number.parseInt(match ? match[0] : 0) || null`.  With no digit run,
`parseInt(0) = 0`, and `0 || null` is `null`; with a digit run of value `0`
the `|| null` likewise yields `null`. -/
def getReceiptCount (innerText : String) : Option Nat :=
  match firstDigitRun innerText.data with
  | none => none
  | some run =>
    let n := digitsVal run
    if n = 0 then none else some n

/-- `PendingMessage` (typedef at lines 1287-1293): `{promise, id}`.  The
promise is represented outside the structure (by the settlement events of the
observer machine below), so only the `id` remains. -/
structure PendingMessage where
  id : Int
deriving DecidableEq, Repr

/-- `SameIDMsgs` (typedef at lines 1295-1303): one group of parse attempts
racing to resolve a single message ID.  `resolve` is the parked continuation
slot: `some d` means a resolved parse for this group is suspended, waiting to
deliver the record `d` once the group reaches the head of the index. -/
structure SameIDMsgs where
  id : Int
  msgs : List PendingMessage
  numRejected : Nat
  resolve : Option MessageData
deriving DecidableEq, Repr

/-- Default group used to totalize JS array indexing (`arr[i]`). -/
def dfltGroup : SameIDMsgs := ⟨0, [], 0, none⟩

/-- `_findMsgsForID` (contentscript.js lines 1314-1338): recursive binary
search over `sortedSameIDMsgs` with explicit `lowerBound`/`upperBound`
(JS numbers, hence `Int`: the initial `upperBound` is `length - 1`, which is
`-1` on an empty array, and the recursion can drive either bound out of
range).  `i` is `lowerBound + Math.floor((upperBound - lowerBound) / 2)`. -/
def findMsgsForIDRec (sortedSameIDMsgs : List SameIDMsgs) (id : Int)
    (returnClosest : Bool) (lowerBound upperBound : Int) : Int :=
  if lowerBound > upperBound then -1
  else if returnClosest = true ∧ lowerBound = upperBound then
    -- Caller must check if the result has a matching ID or not
    if (sortedSameIDMsgs.getD lowerBound.toNat dfltGroup).id ≤ id then lowerBound
    else lowerBound - 1
  else
    let i := lowerBound + (upperBound - lowerBound) / 2
    let val := sortedSameIDMsgs.getD i.toNat dfltGroup
    if val.id = id then i
    else if val.id < id then
      findMsgsForIDRec sortedSameIDMsgs id returnClosest (i + 1) upperBound
    else
      findMsgsForIDRec sortedSameIDMsgs id returnClosest lowerBound (i - 1)
termination_by (upperBound + 1 - lowerBound).toNat
decreasing_by
  · have h0 : 0 ≤ (upperBound - lowerBound) / 2 :=
      Int.ediv_nonneg (by omega) (by omega)
    have h1 : (upperBound - lowerBound) / 2 ≤ upperBound - lowerBound :=
      Int.ediv_le_self _ (by omega)
    omega
  · have h1 : (upperBound - lowerBound) / 2 ≤ upperBound - lowerBound :=
      Int.ediv_le_self _ (by omega)
    omega

/-- `_findMsgsForID` with its default bounds (`lowerBound = 0`,
`upperBound = sortedSameIDMsgs.length - 1`). -/
def findMsgsForID (sortedSameIDMsgs : List SameIDMsgs) (id : Int)
    (returnClosest : Bool) : Int :=
  findMsgsForIDRec sortedSameIDMsgs id returnClosest 0
    ((sortedSameIDMsgs.length : Int) - 1)

/-- JS `arr.splice(n, 0, a)`: insert `a` at index `n` (appending when `n` is
at or past the end). -/
def listInsertAt (n : Nat) (a : α) (l : List α) : List α :=
  l.take n ++ a :: l.drop n

/-- `_insertMsgByID` (contentscript.js lines 1350-1364).  Returns the updated
array together with the group that was added to or created
(`return sortedSameIDMsgs[i]`, after `++i` in the splice branch). -/
def insertMsgByID (sortedSameIDMsgs : List SameIDMsgs) (msg : PendingMessage) :
    List SameIDMsgs × SameIDMsgs :=
  let i := findMsgsForID sortedSameIDMsgs msg.id true
  if i ≠ -1 ∧ (sortedSameIDMsgs.getD i.toNat dfltGroup).id = msg.id then
    let g := sortedSameIDMsgs.getD i.toNat dfltGroup
    let g' := { g with msgs := g.msgs ++ [msg] }
    (sortedSameIDMsgs.set i.toNat g', g')
  else
    let g : SameIDMsgs := ⟨msg.id, [msg], 0, none⟩
    (listInsertAt (i + 1).toNat g sortedSameIDMsgs, g)

/-- The Pending-ID Index invariant: strictly ascending by `id`. -/
def StrictlyAscending (arr : List SameIDMsgs) : Prop :=
  List.Pairwise (fun a b => a.id < b.id) arr

instance : DecidablePred StrictlyAscending := fun arr =>
  inferInstanceAs (Decidable (List.Pairwise _ arr))

/-! ## Receipt parsing (`parseReceiptList`, `_observeReceiptsMulti`) -/

/-- `ReceiptData`: `{id, count}` as built in `parseReceiptList` (lines 760-776)
and `_observeReceiptsMulti` (lines 1268-1274).  For group/room chats the
`count` comes from `_getReceiptCount` and can be `null`. -/
structure ReceiptData where
  id : Int
  count : Option Nat
deriving DecidableEq, Repr

/-- JS numeric coercion of a possibly-`null` count (`null` compares as 0). -/
def countNum (c : Option Nat) : Nat := c.getD 0

/-- The JS property key `` `${count}` `` used to index `rctIDs`: `"null"` for a
`null` count, the decimal string otherwise. -/
def countKey (c : Option Nat) : String :=
  match c with
  | some n => toString n
  | none => "null"

/-- `rctIDs[key] || 0` (lines 779 and 783): object lookup with a default of 0
(a stored 0 is falsy and also yields 0). -/
def rctLookup (rctIDs : List (String × Int)) (key : String) : Int :=
  (rctIDs.lookup key).getD 0

/-- The backward scan of `parseReceiptList` (lines 778-793), processing
`receipts` from index `i-1` down to 0 (the first argument is one past the
index scanned next, so `receipts.length` starts the scan at the newest
receipt).  `minCountToFind` starts at 1. -/
def receiptScan (rctIDs : List (String × Int)) (numOthers : Nat)
    (prevFullyReadID : Int) (receipts : List ReceiptData) :
    Nat → Nat → List ReceiptData
  | 0, _ => []
  | i + 1, minCountToFind =>
    let receipt := receipts.getD i ⟨0, none⟩
    if countNum receipt.count ≥ minCountToFind ∧
        receipt.id > rctLookup rctIDs (countKey receipt.count) then
      if countNum receipt.count < numOthers then
        receipt ::
          receiptScan rctIDs numOthers prevFullyReadID receipts i
            (countNum receipt.count + 1)
      else
        [receipt]
    else if receipt.id ≤ prevFullyReadID then []
    else receiptScan rctIDs numOthers prevFullyReadID receipts i minCountToFind

/-- `parseReceiptList` (lines 752-796) from the point where the visible
receipt elements have been read off the DOM into `receipts` (oldest first,
with `count = 1` for direct chats): computes `prevFullyReadID` from the
`numOthers` tier of `rctIDs` and runs the backward scan. -/
def parseReceiptList (rctIDs : List (String × Int)) (numOthers : Nat)
    (receipts : List ReceiptData) : List ReceiptData :=
  let prevFullyReadID := rctLookup rctIDs (toString numOthers)
  receiptScan rctIDs numOthers prevFullyReadID receipts receipts.length 1

/-! ## `parseMessageList` timestamp backfill -/

/-- One outcome of `Promise.allSettled` over the message parse promises of
`parseMessageList`: fulfilled with a record, or rejected (the reason is the
partial record thrown by `_parseMessage`). -/
inductive SettledParse where
  | fulfilled (value : MessageData)
  | rejected (reason : MessageData)
deriving DecidableEq, Repr

/-- `value.status == "fulfilled"` filtering plus `.map(value => value.value)`
(lines 727-729). -/
def fulfilledValues (settled : List SettledParse) : List MessageData :=
  settled.filterMap fun s =>
    match s with
    | SettledParse.fulfilled v => some v
    | SettledParse.rejected _ => none

/-- The member-event timestamp backfill loop of `parseMessageList`
(lines 734-738): for `i` from 1 upward, if `messages[i].member_info` is set,
`messages[i].timestamp = messages[i-1].timestamp`, reading the *already
updated* `messages[i-1]`. -/
def backfillFrom (prev : MessageData) : List MessageData → List MessageData
  | [] => []
  | m :: rest =>
    let m' := if m.member_info.isSome then { m with timestamp := prev.timestamp } else m
    m' :: backfillFrom m' rest

/-- The full backfill: `messages[0]` is never modified. -/
def backfillMemberTimestamps : List MessageData → List MessageData
  | [] => []
  | m :: rest => m :: backfillFrom m rest

/-- `parseMessageList` (lines 683-741) from the point where all message parse
promises have settled: keep the fulfilled records (in DOM order) and apply the
member-event timestamp backfill.  The DOM walk that creates the promises
(lines 685-725) supplies `settled`. -/
def parseMessageListResolved (settled : List SettledParse) : List MessageData :=
  backfillMemberTimestamps (fulfilledValues settled)

/-! ## Own-message correlator (`promiseOwnMessage` and friends) -/

/-- The own-send fields of `MautrixController` that the correlator mutates.
`hasResolve`/`hasReject` model the non-nullness of `promiseOwnMsgResolve` /
`promiseOwnMsgReject`; `timerArmed` models a live `setTimeout` whose handle is
`promiseOwnMsgTimeoutID`; `successObs = some m` models a connected
`visibleSuccessObserver` whose callback captured `msgID = m`; `failureObs`
models a connected `visibleFailureObserver` (its callback captured
`msgID = null`). -/
structure OwnMsgState where
  successSel : Option String
  failureSel : Option String
  hasResolve : Bool
  hasReject : Bool
  timerArmed : Bool
  successObs : Option Int
  failureObs : Bool
deriving DecidableEq, Repr

/-- A settlement of `ownMsgPromise` as observed by its consumers:
`resolve(msgID)` or `reject(failureElement)` (elements are abstract tokens). -/
inductive OwnSettle where
  | resolved (msgID : Int)
  | rejected (failureTarget : Option Nat)
deriving DecidableEq, Repr

/-- `_promiseOwnMsgReset` (lines 1621-1636): nulls the selectors, resolver,
rejecter and timeout handle, and disconnects both visibility observers.  The
OS timer itself is *not* cancelled here (only `_resolveOwnMessage` calls
`clearTimeout`), so `timerArmed` is left as-is. -/
def promiseOwnMsgReset (s : OwnMsgState) : OwnMsgState :=
  { s with successSel := none, failureSel := none, hasResolve := false,
           hasReject := false, successObs := none, failureObs := false }

/-- `_resolveOwnMessage` (lines 1604-1611): no-op unless a resolver is
pending; otherwise clears the timeout, resets all state (disconnecting the
observers), and only then invokes `resolve(msgID)` — the emitted settlement is
returned alongside the post-state. -/
def resolveOwnMessage (s : OwnMsgState) (msgID : Int) :
    OwnMsgState × List OwnSettle :=
  if s.hasResolve then
    (promiseOwnMsgReset { s with timerArmed := false },
      [OwnSettle.resolved msgID])
  else (s, [])

/-- `_rejectOwnMessage` (lines 1613-1619): no-op unless a rejecter is pending;
otherwise resets all state (disconnecting the observers) and only then invokes
`reject(failureElement)`. -/
def rejectOwnMessage (s : OwnMsgState) (failureTarget : Option Nat) :
    OwnMsgState × List OwnSettle :=
  if s.hasReject then
    (promiseOwnMsgReset s, [OwnSettle.rejected failureTarget])
  else (s, [])

/-- JS truthiness of the captured `msgID` in `_getOwnVisibleCallback`
(`const isSuccess = !!msgID`): `null` and `0` are falsy. -/
def msgIDTruthy : Option Int → Bool
  | none => false
  | some n => n != 0

/-- `_getOwnVisibleCallback` (lines 1590-1602) applied to a mutation batch:
each change carries its target token and whether the target currently has the
`MdNonDisp` class; the first change whose target is visible settles the
promise (resolve with the captured `msgID` on the success observer, reject
with the target on the failure observer) and returns. -/
def ownVisibleCallback (s : OwnMsgState) (msgID : Option Int)
    (changes : List (Nat × Bool)) : OwnMsgState × List OwnSettle :=
  match changes.find? (fun ch => !ch.2) with
  | none => (s, [])
  | some ch =>
    if msgIDTruthy msgID then resolveOwnMessage s (msgID.getD 0)
    else rejectOwnMessage s (some ch.1)

/-- The `setTimeout` callback of `promiseOwnMessage` (lines 1630-1635):
rejects (with no failure element) only if the promise is still unsettled. -/
def ownTimeoutCallback (s : OwnMsgState) : OwnMsgState × List OwnSettle :=
  if s.hasReject then rejectOwnMessage s none else (s, [])

/-- `promiseOwnMessage` (lines 622-636): stores the selectors, creates a fresh
promise (arming resolver and rejecter) and arms the timeout. -/
def promiseOwnMessage (s : OwnMsgState) (successSelector : String)
    (failureSelector : Option String) : OwnMsgState :=
  { s with successSel := some successSelector, failureSel := failureSelector,
           hasResolve := true, hasReject := true, timerArmed := true }

/-- The candidate own-send element as `_observeOwnMessage` reads it: its
`data-local-id` and, for each selector that matches inside it, the matched
indicator element (token, has-`MdNonDisp`). -/
structure OwnElement where
  dataLocalId : Int
  successTarget : Option (Nat × Bool)
  failureTarget : Option (Nat × Bool)
deriving DecidableEq, Repr

/-- `_observeOwnMessage` (lines 1536-1588): accepts the element only when a
send is pending, the success indicator exists and is still invisible, and —
when a failure selector was supplied — the failure indicator exists and is
still invisible.  On acceptance it connects the success observer (callback
capturing the element's `data-local-id`) and, if applicable, the failure
observer, and returns the element (`true` here). -/
def observeOwnMessage (s : OwnMsgState) (ownMsg : OwnElement) :
    OwnMsgState × Bool :=
  if s.hasResolve = false then (s, false)
  else
    match ownMsg.successTarget with
    | none => (s, false)
    | some st =>
      if st.2 = false then (s, false)
      else
        match s.failureSel with
        | none =>
          ({ s with successObs := some ownMsg.dataLocalId }, true)
        | some _ =>
          match ownMsg.failureTarget with
          | none => (s, false)
          | some ft =>
            if ft.2 = false then (s, false)
            else
              ({ s with successObs := some ownMsg.dataLocalId,
                        failureObs := true }, true)

/-! ## The message-list observer (`addMsgListObserver`, lines 1372-1534)

The observer closure owns three mutable pieces: the watermark `minID`, the
array `sortedSameIDMsgs`, and the records delivered so far through
`window.__mautrixReceiveMessages`.  The `.then` callbacks attached to each
parse promise capture the `SameIDMsgs` *object* returned by `_insertMsgByID`,
and keep mutating it even after it has left the array; the embedding therefore
gives every group object a key into a store (`store`), keeps the array as a
list of keys (`arr`), and records for every parse attempt the key of its
captured group (`attempts`).  All callbacks run sequentially on the single JS
event loop; a machine step is one settlement callback (or one tracked element
arrival) run to completion. -/

structure ObsState where
  minID : Int
  arr : List Nat
  store : List (Nat × SameIDMsgs)
  attempts : List (Nat × Nat)
  nextKey : Nat
  delivered : List MessageData
deriving DecidableEq, Repr

/-- Dereference a group key. -/
def storeGet (store : List (Nat × SameIDMsgs)) (k : Nat) : SameIDMsgs :=
  (store.lookup k).getD dfltGroup

/-- Mutate the group object behind a key. -/
def storeSet (store : List (Nat × SameIDMsgs)) (k : Nat) (g : SameIDMsgs) :
    List (Nat × SameIDMsgs) :=
  store.map fun p => if p.1 = k then (k, g) else p

/-- The value of `sortedSameIDMsgs` as the code sees it: the array of group
objects. -/
def viewArr (st : ObsState) : List SameIDMsgs :=
  st.arr.map fun k => storeGet st.store k

/-- The captured group of a parse attempt. -/
def attemptKey (st : ObsState) (tok : Nat) : Nat :=
  (st.attempts.lookup tok).getD 0

/-- `handleMessage` (lines 1461-1470): set `minID` to the record's id, `shift`
the array, send the record to the backend, and if the new head group has a
parked continuation, invoke it — which runs the parked waiter's own
`handleMessage` with its suspended record. -/
def handleMessage (st : ObsState) (data : MessageData) : ObsState :=
  let st1 : ObsState :=
    { st with minID := data.id, arr := st.arr.drop 1,
              delivered := st.delivered ++ [data] }
  match _h : st1.arr with
  | [] => st1
  | k :: _ =>
    match (storeGet st1.store k).resolve with
    | none => st1
    | some d => handleMessage st1 d
termination_by st.arr.length
decreasing_by
  simp only [st1] at _h ⊢
  cases harr : st.arr with
  | nil => rw [harr] at _h; simp at _h
  | cons a rest => simp [harr]

/-- The fulfilled branch of `pendingMessage.promise.then` (lines 1472-1490):
look the record's id up in the array; `-1` means the id was already handled
(the resolution is discarded); a non-head position parks the continuation on
the captured group (`sameIDMsgs.resolve = resolve`) to be woken later; the
head position delivers immediately. -/
def settleResolve (st : ObsState) (tok : Nat) (data : MessageData) : ObsState :=
  let i := findMsgsForID (viewArr st) data.id false
  if i = -1 then st
  else if i ≠ 0 then
    let k := attemptKey st tok
    let g := storeGet st.store k
    { st with store := storeSet st.store k { g with resolve := some data } }
  else handleMessage st data

/-- The rejected branch of `pendingMessage.promise.then` (lines 1491-1502):
increment the captured group's `numRejected`; when every attempt of the group
has now rejected, deliver the rejection's partial record via `handleMessage`
(the reason thrown by `_parseMessage` is the partially-built `MessageData`). -/
def settleReject (st : ObsState) (tok : Nat) (data : MessageData) : ObsState :=
  let k := attemptKey st tok
  let g := storeGet st.store k
  let g' := { g with numRejected := g.numRejected + 1 }
  let st1 := { st with store := storeSet st.store k g' }
  if g'.numRejected = g'.msgs.length then handleMessage st1 data else st1

/-- The tracking of one new remote message element by the mutation callback
(lines 1403-1459, remote branch): elements with `data-local-id` at or below
`minID` are ignored; otherwise a `PendingMessage` is created and inserted via
`_insertMsgByID`, the parse attempt `tok` capturing the group it was added
to. -/
def arriveRemote (st : ObsState) (tok : Nat) (msgID : Int) : ObsState :=
  if msgID > st.minID then
    let view := viewArr st
    let i := findMsgsForID view msgID true
    if i ≠ -1 ∧ (view.getD i.toNat dfltGroup).id = msgID then
      let k := st.arr.getD i.toNat 0
      let g := storeGet st.store k
      { st with
          store := storeSet st.store k { g with msgs := g.msgs ++ [⟨msgID⟩] },
          attempts := (tok, k) :: st.attempts }
    else
      let k := st.nextKey
      { st with arr := listInsertAt (i + 1).toNat k st.arr,
                store := (k, ⟨msgID, [⟨msgID⟩], 0, none⟩) :: st.store,
                attempts := (tok, k) :: st.attempts,
                nextKey := k + 1 }
  else st

/-- One event on the observer's event loop: a tracked remote element arrival,
or the settlement (resolution/rejection) of the parse attempt `tok`. -/
inductive ObsEvent where
  | arrive (tok : Nat) (msgID : Int)
  | resolveParse (tok : Nat) (data : MessageData)
  | rejectParse (tok : Nat) (data : MessageData)
deriving DecidableEq, Repr

def obsStep (st : ObsState) (e : ObsEvent) : ObsState :=
  match e with
  | ObsEvent.arrive tok msgID => arriveRemote st tok msgID
  | ObsEvent.resolveParse tok data => settleResolve st tok data
  | ObsEvent.rejectParse tok data => settleReject st tok data

/-- The observer state right after `addMsgListObserver(minID)` set up its
closure. -/
def obsInit (minID : Int) : ObsState := ⟨minID, [], [], [], 0, []⟩

/-- Run the observer over a sequence of events. -/
def obsRun (minID : Int) (events : List ObsEvent) : ObsState :=
  events.foldl obsStep (obsInit minID)

/-! ## Theorems -/

lemma ascending_getD {arr : List SameIDMsgs} (h : StrictlyAscending arr)
    {j k : Nat} (hjk : j < k) (hk : k < arr.length) :
    (arr.getD j dfltGroup).id < (arr.getD k dfltGroup).id := by
  have hj : j < arr.length := lt_trans hjk hk
  rw [List.getD_eq_getElem arr dfltGroup hj, List.getD_eq_getElem arr dfltGroup hk]
  exact List.pairwise_iff_getElem.mp h j k hj hk hjk

lemma findRec_sound (arr : List SameIDMsgs) (id : Int) :
    ∀ lb ub : Int, 0 ≤ lb → ub < (arr.length : Int) →
      findMsgsForIDRec arr id false lb ub ≠ -1 →
      0 ≤ findMsgsForIDRec arr id false lb ub ∧
      (findMsgsForIDRec arr id false lb ub).toNat < arr.length ∧
      (arr.getD (findMsgsForIDRec arr id false lb ub).toNat dfltGroup).id = id := by
  intro lb ub
  induction lb, ub using findMsgsForIDRec.induct arr id false with
  | case1 lb ub hgt =>
    intro _ _ hne
    rw [findMsgsForIDRec, if_pos hgt] at hne
    exact absurd rfl hne
  | case2 lb ub hle hcl =>
    exact absurd hcl.1 (by simp)
  | case3 lb ub hle hcl =>
    exact absurd hcl.1 (by simp)
  | case4 lb ub hle hcl i val heq =>
    intro hlb hub _
    have h0 : 0 ≤ (ub - lb) / 2 := Int.ediv_nonneg (by omega) (by omega)
    have h1 : (ub - lb) / 2 ≤ ub - lb := Int.ediv_le_self _ (by omega)
    rw [findMsgsForIDRec, if_neg hle, if_neg hcl]
    simp only [if_pos heq]
    refine ⟨by omega, by omega, ?_⟩
    exact heq
  | case5 lb ub hle hcl i val hne hlt ih =>
    intro hlb hub hr
    have h0 : 0 ≤ (ub - lb) / 2 := Int.ediv_nonneg (by omega) (by omega)
    rw [findMsgsForIDRec, if_neg hle, if_neg hcl] at hr ⊢
    simp only [if_neg hne, if_pos hlt] at hr ⊢
    exact ih (by omega) hub hr
  | case6 lb ub hle hcl i val hne hnlt ih =>
    intro hlb hub hr
    have h1 : (ub - lb) / 2 ≤ ub - lb := Int.ediv_le_self _ (by omega)
    rw [findMsgsForIDRec, if_neg hle, if_neg hcl] at hr ⊢
    simp only [if_neg hne, if_neg hnlt] at hr ⊢
    exact ih hlb (by omega) hr

lemma findRec_found (arr : List SameIDMsgs) (id : Int)
    (hs : StrictlyAscending arr) :
    ∀ lb ub : Int, 0 ≤ lb → ub < (arr.length : Int) →
      ∀ j : Nat, j < arr.length → lb ≤ (j : Int) → (j : Int) ≤ ub →
        (arr.getD j dfltGroup).id = id →
        findMsgsForIDRec arr id false lb ub ≠ -1 := by
  intro lb ub
  induction lb, ub using findMsgsForIDRec.induct arr id false with
  | case1 lb ub hgt =>
    intro _ _ j _ hj1 hj2 _
    omega
  | case2 lb ub hle hcl => exact absurd hcl.1 (by simp)
  | case3 lb ub hle hcl => exact absurd hcl.1 (by simp)
  | case4 lb ub hle hcl i val heq =>
    intro hlb hub j hj hj1 hj2 hjid
    have h0 : 0 ≤ (i - lb) := by
      have := Int.ediv_nonneg (show (0:Int) ≤ ub - lb by omega) (show (0:Int) ≤ 2 by omega)
      omega
    rw [findMsgsForIDRec, if_neg hle, if_neg hcl]
    simp only [if_pos heq]
    omega
  | case5 lb ub hle hcl i val hne hlt ih =>
    intro hlb hub j hj hj1 hj2 hjid
    have h0 : 0 ≤ (ub - lb) / 2 := Int.ediv_nonneg (by omega) (by omega)
    have h1 : (ub - lb) / 2 ≤ ub - lb := Int.ediv_le_self _ (by omega)
    rw [findMsgsForIDRec, if_neg hle, if_neg hcl]
    simp only [if_neg hne, if_pos hlt]
    -- the index carrying `id` must lie strictly above `i`
    have hji : i < (j : Int) := by
      by_contra hcon
      push_neg at hcon
      have hitoNat : i.toNat < arr.length := by omega
      rcases Nat.lt_or_ge j i.toNat with hlt2 | hge
      · have := ascending_getD hs hlt2 hitoNat
        have hval : val.id = (arr.getD i.toNat dfltGroup).id := rfl
        omega
      · have hji2 : j = i.toNat := by omega
        rw [hji2] at hjid
        exact hne hjid
    exact ih (by omega) hub j hj (by omega) hj2 hjid
  | case6 lb ub hle hcl i val hne hnlt ih =>
    intro hlb hub j hj hj1 hj2 hjid
    have h0 : 0 ≤ (ub - lb) / 2 := Int.ediv_nonneg (by omega) (by omega)
    have h1 : (ub - lb) / 2 ≤ ub - lb := Int.ediv_le_self _ (by omega)
    rw [findMsgsForIDRec, if_neg hle, if_neg hcl]
    simp only [if_neg hne, if_neg hnlt]
    have hji : (j : Int) < i := by
      by_contra hcon
      push_neg at hcon
      have hitoNat : i.toNat < arr.length := by omega
      rcases Nat.lt_or_ge i.toNat j with hlt2 | hge
      · have := ascending_getD hs hlt2 hj
        have hval : val.id = (arr.getD i.toNat dfltGroup).id := rfl
        omega
      · have hji2 : j = i.toNat := by omega
        rw [hji2] at hjid
        exact hne hjid
    exact ih hlb (by omega) j hj hj1 (by omega) hjid

/-- C5: on an array of `SameIDMsgs` strictly ascending by `id`,
`_findMsgsForID` with `returnClosest = false` (and its default bounds)
terminates and returns an in-range index whose element has exactly the sought
`id` whenever such a group exists, and returns `-1` whenever no group with
that `id` exists. -/
theorem findMsgsForID_exact (arr : List SameIDMsgs) (id : Int)
    (hsorted : StrictlyAscending arr) :
    ((∃ j : Nat, j < arr.length ∧ (arr.getD j dfltGroup).id = id) →
      0 ≤ findMsgsForID arr id false ∧
      (findMsgsForID arr id false).toNat < arr.length ∧
      (arr.getD (findMsgsForID arr id false).toNat dfltGroup).id = id) ∧
    ((∀ j : Nat, j < arr.length → (arr.getD j dfltGroup).id ≠ id) →
      findMsgsForID arr id false = -1) := by
  constructor
  · rintro ⟨j, hj, hjid⟩
    have hne := findRec_found arr id hsorted 0 ((arr.length : Int) - 1)
      (by omega) (by omega) j hj (by omega) (by omega) hjid
    exact findRec_sound arr id 0 ((arr.length : Int) - 1) (by omega) (by omega) hne
  · intro hall
    by_contra hne
    have := findRec_sound arr id 0 ((arr.length : Int) - 1) (by omega) (by omega) hne
    exact hall _ this.2.1 this.2.2

/-- Witness for C5: on the two-group index with ids 1 and 3, searching for 3
finds an index holding id 3, and searching for 2 returns -1. -/
theorem findMsgsForID_exact_wit :
    (0 ≤ findMsgsForID [⟨1, [⟨1⟩], 0, none⟩, ⟨3, [⟨3⟩], 0, none⟩] 3 false ∧
     (findMsgsForID [⟨1, [⟨1⟩], 0, none⟩, ⟨3, [⟨3⟩], 0, none⟩] 3 false).toNat < 2 ∧
     (([⟨1, [⟨1⟩], 0, none⟩, ⟨3, [⟨3⟩], 0, none⟩] : List SameIDMsgs).getD
        (findMsgsForID [⟨1, [⟨1⟩], 0, none⟩, ⟨3, [⟨3⟩], 0, none⟩] 3 false).toNat
        dfltGroup).id = 3) ∧
    findMsgsForID [⟨1, [⟨1⟩], 0, none⟩, ⟨3, [⟨3⟩], 0, none⟩] 2 false = -1 := by
  constructor
  · exact (findMsgsForID_exact [⟨1, [⟨1⟩], 0, none⟩, ⟨3, [⟨3⟩], 0, none⟩] 3
      (by decide)).1 ⟨1, by decide, by decide⟩
  · exact (findMsgsForID_exact [⟨1, [⟨1⟩], 0, none⟩, ⟨3, [⟨3⟩], 0, none⟩] 2
      (by decide)).2 (by decide)

/-- C4 (code bug): `_insertMsgByID` does *not* always preserve sort order,
contradicting its own doc comment ("insert a new one, preserving sort
order").  On the strictly ascending index with ids `[1, 5, 9, 12]`, inserting
a message with the new id 7 makes `_findMsgsForID(..., returnClosest=true)`
return -1 (its recursion reaches an empty range `[2, 1]` after first
descending right), so the new singleton group is spliced at position 0 and
the array ends up ordered `[7, 1, 5, 9, 12]`. -/
theorem insertMsgByID_breaks_sort_order :
    StrictlyAscending
      [⟨1, [⟨1⟩], 0, none⟩, ⟨5, [⟨5⟩], 0, none⟩,
       ⟨9, [⟨9⟩], 0, none⟩, ⟨12, [⟨12⟩], 0, none⟩] ∧
    findMsgsForID
      [⟨1, [⟨1⟩], 0, none⟩, ⟨5, [⟨5⟩], 0, none⟩,
       ⟨9, [⟨9⟩], 0, none⟩, ⟨12, [⟨12⟩], 0, none⟩] 7 true = -1 ∧
    (insertMsgByID
      [⟨1, [⟨1⟩], 0, none⟩, ⟨5, [⟨5⟩], 0, none⟩,
       ⟨9, [⟨9⟩], 0, none⟩, ⟨12, [⟨12⟩], 0, none⟩] ⟨7⟩).1.map SameIDMsgs.id
      = [7, 1, 5, 9, 12] ∧
    ¬ StrictlyAscending (insertMsgByID
      [⟨1, [⟨1⟩], 0, none⟩, ⟨5, [⟨5⟩], 0, none⟩,
       ⟨9, [⟨9⟩], 0, none⟩, ⟨12, [⟨12⟩], 0, none⟩] ⟨7⟩).1 := by
  have hfind : findMsgsForID
      [⟨1, [⟨1⟩], 0, none⟩, ⟨5, [⟨5⟩], 0, none⟩,
       ⟨9, [⟨9⟩], 0, none⟩, ⟨12, [⟨12⟩], 0, none⟩] 7 true = -1 := by
    simp [findMsgsForID, findMsgsForIDRec, dfltGroup]
  have hins : (insertMsgByID
      [⟨1, [⟨1⟩], 0, none⟩, ⟨5, [⟨5⟩], 0, none⟩,
       ⟨9, [⟨9⟩], 0, none⟩, ⟨12, [⟨12⟩], 0, none⟩] ⟨7⟩).1
      = [⟨7, [⟨7⟩], 0, none⟩, ⟨1, [⟨1⟩], 0, none⟩, ⟨5, [⟨5⟩], 0, none⟩,
         ⟨9, [⟨9⟩], 0, none⟩, ⟨12, [⟨12⟩], 0, none⟩] := by
    simp [insertMsgByID, hfind, listInsertAt, dfltGroup]
  refine ⟨by decide, hfind, ?_, ?_⟩
  · rw [hins]; decide
  · rw [hins]; decide

/-- C9: `getChatType` returns `DIRECT` for every chat ID whose first character
is `'u'`, `GROUP` for `'c'`, `ROOM` for `'r'`, and throws (`Except.error`) for
every other ID — including the empty string, whose `charAt(0)` is `""` and
falls through to the `default` branch. -/
theorem getChatType_spec (id : String) :
    (∀ rest, id.data = 'u' :: rest → getChatType id = Except.ok ChatTypeEnum.DIRECT) ∧
    (∀ rest, id.data = 'c' :: rest → getChatType id = Except.ok ChatTypeEnum.GROUP) ∧
    (∀ rest, id.data = 'r' :: rest → getChatType id = Except.ok ChatTypeEnum.ROOM) ∧
    ((∀ c rest, id.data = c :: rest → c ≠ 'u' ∧ c ≠ 'c' ∧ c ≠ 'r') →
      getChatType id = Except.error ("Invalid chat ID: " ++ id)) := by
  refine ⟨?_, ?_, ?_, ?_⟩
  · intro rest h; simp [getChatType, h]
  · intro rest h; simp [getChatType, h]
  · intro rest h; simp [getChatType, h]
  · intro hall
    cases h : id.data with
    | nil => simp [getChatType, h]
    | cons c rest =>
      have hc := hall c rest h
      simp [getChatType, h, hc.1, hc.2.1, hc.2.2]

/-- Witness for C9, at the chat IDs "u123" and "x1". -/
theorem getChatType_spec_wit :
    getChatType "u123" = Except.ok ChatTypeEnum.DIRECT ∧
    getChatType "x1" = Except.error "Invalid chat ID: x1" := by
  constructor
  · exact (getChatType_spec "u123").1 ['1', '2', '3'] (by decide)
  · refine (getChatType_spec "x1").2.2.2 ?_
    intro c rest h
    have hd : "x1".data = ['x', '1'] := by decide
    rw [hd] at h
    simp only [List.cons.injEq] at h
    rw [← h.1]
    decide

lemma firstDigitRun_none {l : List Char} (h : ∀ c ∈ l, c.isDigit = false) :
    firstDigitRun l = none := by
  induction l with
  | nil => rfl
  | cons c rest ih =>
    have hc := h c (by simp)
    rw [firstDigitRun, if_neg (by simp [hc])]
    exact ih fun x hx => h x (by simp [hx])

/-- C10: `_getReceiptCount` never yields the number 0: every `some` result is
positive; a text with no digit characters yields `null`; and a first digit
run whose numeric value is 0 also yields `null` (because of the `|| null`).
The function supplies group/room `ReceiptData.count` and outgoing
`MessageData.receipt_count`. -/
theorem getReceiptCount_spec (s : String) :
    (∀ n, getReceiptCount s = some n → 0 < n) ∧
    ((∀ c ∈ s.data, c.isDigit = false) → getReceiptCount s = none) ∧
    (∀ run, firstDigitRun s.data = some run → digitsVal run = 0 →
      getReceiptCount s = none) := by
  refine ⟨?_, ?_, ?_⟩
  · intro n h
    unfold getReceiptCount at h
    cases hrun : firstDigitRun s.data with
    | none => rw [hrun] at h; exact absurd h (by simp)
    | some run =>
      rw [hrun] at h
      simp only at h
      by_cases h0 : digitsVal run = 0
      · rw [if_pos h0] at h; exact absurd h (by simp)
      · rw [if_neg h0] at h
        have : digitsVal run = n := by
          simpa using h
        omega
  · intro h
    unfold getReceiptCount
    rw [firstDigitRun_none h]
  · intro run hrun h0
    unfold getReceiptCount
    rw [hrun]
    simp [h0]

/-- Witness for C10: a digit-free receipt text gives `null`, and "Read 3"
gives a positive count. -/
theorem getReceiptCount_spec_wit :
    getReceiptCount "Read by all" = none ∧ 0 < 3 := by
  constructor
  · exact (getReceiptCount_spec "Read by all").2.1 (by decide)
  · exact (getReceiptCount_spec "Read 3").1 3 (by decide)

lemma backfillFrom_props (l : List MessageData) :
    ∀ prev : MessageData,
      ((backfillFrom prev l).length = l.length) ∧
      (∀ m0, (backfillFrom prev l).getD 0 m0 ∈ backfillFrom prev l →
        True) ∧
      (0 < (backfillFrom prev l).length →
        ((backfillFrom prev l).getD 0 (mkMsg 0)).member_info.isSome = true →
        ((backfillFrom prev l).getD 0 (mkMsg 0)).timestamp = prev.timestamp) ∧
      (∀ i : Nat, i + 1 < (backfillFrom prev l).length →
        ((backfillFrom prev l).getD (i + 1) (mkMsg 0)).member_info.isSome = true →
        ((backfillFrom prev l).getD (i + 1) (mkMsg 0)).timestamp
          = ((backfillFrom prev l).getD i (mkMsg 0)).timestamp) := by
  induction l with
  | nil =>
    intro prev
    refine ⟨rfl, fun _ _ => trivial, ?_, ?_⟩
    · intro h; simp [backfillFrom] at h
    · intro i h; simp [backfillFrom] at h
  | cons m rest ih =>
    intro prev
    refine ⟨?_, fun _ _ => trivial, ?_, ?_⟩
    · simp [backfillFrom, (ih _).1]
    · intro _ hmem
      rw [backfillFrom] at hmem ⊢
      simp only [List.getD_cons_zero] at hmem ⊢
      by_cases hm : m.member_info.isSome = true
      · simp [hm]
      · rw [if_neg (by simp [hm])] at hmem ⊢
        exact absurd hmem hm
    · intro i hlen hmemb
      rw [backfillFrom] at hlen hmemb ⊢
      simp only [List.getD_cons_succ, List.length_cons] at hlen hmemb ⊢
      cases i with
      | zero =>
        simp only [List.getD_cons_zero]
        have hne : 0 < (backfillFrom (if m.member_info.isSome = true
            then { m with timestamp := prev.timestamp } else m) rest).length := by
          omega
        exact (ih _).2.2.1 hne hmemb
      | succ j =>
        simp only [List.getD_cons_succ]
        exact (ih _).2.2.2 j (by omega) hmemb

/-- C8: in the list returned by `parseMessageList` (modelled from the point
where all message parse promises have settled — the backfill loop runs only
on the fully settled, fulfilled records), every record with `member_info` set
that is not the first returned message has its `timestamp` equal to the
timestamp of the immediately preceding returned message. -/
theorem parseMessageList_member_backfill (settled : List SettledParse) :
    ∀ i : Nat, i + 1 < (parseMessageListResolved settled).length →
      ((parseMessageListResolved settled).getD (i + 1) (mkMsg 0)).member_info.isSome = true →
      ((parseMessageListResolved settled).getD (i + 1) (mkMsg 0)).timestamp
        = ((parseMessageListResolved settled).getD i (mkMsg 0)).timestamp := by
  have key : ∀ (l : List MessageData) (i : Nat),
      i + 1 < (backfillMemberTimestamps l).length →
      ((backfillMemberTimestamps l).getD (i + 1) (mkMsg 0)).member_info.isSome = true →
      ((backfillMemberTimestamps l).getD (i + 1) (mkMsg 0)).timestamp
        = ((backfillMemberTimestamps l).getD i (mkMsg 0)).timestamp := by
    intro l
    cases l with
    | nil => intro i hlen _; simp [backfillMemberTimestamps] at hlen
    | cons m rest =>
      intro i hlen hmemb
      simp only [backfillMemberTimestamps, List.length_cons] at hlen hmemb ⊢
      cases i with
      | zero =>
        simp only [List.getD_cons_zero, List.getD_cons_succ] at hmemb ⊢
        have hne : 0 < (backfillFrom m rest).length := by
          have := (backfillFrom_props rest m).1
          omega
        exact (backfillFrom_props rest m).2.2.1 hne hmemb
      | succ j =>
        simp only [List.getD_cons_succ] at hmemb ⊢
        exact (backfillFrom_props rest m).2.2.2 j (by omega) hmemb
  exact key (fulfilledValues settled)

/-- Witness for C8: a fulfilled message with timestamp 100 followed by a
fulfilled membership notice; the notice's returned timestamp is backfilled
to 100. -/
theorem parseMessageList_member_backfill_wit :
    ((parseMessageListResolved
        [SettledParse.fulfilled { mkMsg 1 with timestamp := some 100 },
         SettledParse.fulfilled { mkMsg 2 with member_info := some ⟨false, true, false⟩ }]).getD
      1 (mkMsg 0)).timestamp
    = ((parseMessageListResolved
        [SettledParse.fulfilled { mkMsg 1 with timestamp := some 100 },
         SettledParse.fulfilled { mkMsg 2 with member_info := some ⟨false, true, false⟩ }]).getD
      0 (mkMsg 0)).timestamp := by
  exact parseMessageList_member_backfill
    [SettledParse.fulfilled { mkMsg 1 with timestamp := some 100 },
     SettledParse.fulfilled { mkMsg 2 with member_info := some ⟨false, true, false⟩ }]
    0 (by decide) (by decide)

lemma receiptScan_mem (rctIDs : List (String × Int)) (numOthers : Nat)
    (prevFullyReadID : Int) (receipts : List ReceiptData) :
    ∀ (n minCount : Nat), 1 ≤ minCount →
      ∀ r ∈ receiptScan rctIDs numOthers prevFullyReadID receipts n minCount,
        1 ≤ countNum r.count ∧ r.id > rctLookup rctIDs (countKey r.count) := by
  intro n
  induction n with
  | zero => intro minCount h1 r hr; simp [receiptScan] at hr
  | succ i ih =>
    intro minCount h1 r hr
    simp only [receiptScan] at hr
    by_cases hc : countNum (receipts.getD i ⟨0, none⟩).count ≥ minCount ∧
        (receipts.getD i ⟨0, none⟩).id >
          rctLookup rctIDs (countKey (receipts.getD i ⟨0, none⟩).count)
    · rw [if_pos hc] at hr
      by_cases hlt : countNum (receipts.getD i ⟨0, none⟩).count < numOthers
      · rw [if_pos hlt] at hr
        rcases List.mem_cons.mp hr with heq | hmem
        · subst heq; exact ⟨le_trans h1 hc.1, hc.2⟩
        · exact ih _ (by omega) r hmem
      · rw [if_neg hlt] at hr
        simp only [List.mem_singleton] at hr
        subst hr
        exact ⟨le_trans h1 hc.1, hc.2⟩
    · rw [if_neg hc] at hr
      by_cases hlow : (receipts.getD i ⟨0, none⟩).id ≤ prevFullyReadID
      · rw [if_pos hlow] at hr; simp at hr
      · rw [if_neg hlow] at hr; exact ih _ h1 r hr

/-- C6 counterexample: the backward scan does *not* exit on every receipt
whose id is at or below the fully-read tier's watermark.  With watermarks
`{2: 10}` in a chat with 2 other participants, the fully-read watermark is
10, yet the single visible receipt `{id: 5, count: 1}` passes the tier-1
newness test (`5 > 0`) and is returned instead of ending the scan. -/
theorem parseReceiptList_cex :
    parseReceiptList [("2", 10)] 2 [⟨5, some 1⟩] = [⟨5, some 1⟩] ∧
    rctLookup [("2", 10)] (toString 2) = 10 ∧
    ¬ (∀ r ∈ parseReceiptList [("2", 10)] 2 [⟨5, some 1⟩],
        r.id > rctLookup [("2", 10)] (toString 2)) := by
  refine ⟨by decide, by decide, ?_⟩
  intro hall
  have := hall ⟨5, some 1⟩ (by decide)
  revert this
  decide

/-- C6 (amended): every `ReceiptData` returned by `parseReceiptList` has an
id strictly greater than the watermark for its own count tier (a missing tier
counting as 0, the `null` count keyed as `"null"`), and the backward scan
exits early — delivering nothing further — once it reaches a receipt that
*fails the newness test* and whose id is at or below the fully-read tier's
watermark. -/
theorem parseReceiptList_spec (rctIDs : List (String × Int)) (numOthers : Nat)
    (receipts : List ReceiptData) :
    (∀ r ∈ parseReceiptList rctIDs numOthers receipts,
      1 ≤ countNum r.count ∧ r.id > rctLookup rctIDs (countKey r.count)) ∧
    (∀ (i minCount : Nat),
      ¬(countNum (receipts.getD i ⟨0, none⟩).count ≥ minCount ∧
        (receipts.getD i ⟨0, none⟩).id >
          rctLookup rctIDs (countKey (receipts.getD i ⟨0, none⟩).count)) →
      (receipts.getD i ⟨0, none⟩).id ≤ rctLookup rctIDs (toString numOthers) →
      receiptScan rctIDs numOthers (rctLookup rctIDs (toString numOthers))
        receipts (i + 1) minCount = []) := by
  constructor
  · intro r hr
    exact receiptScan_mem rctIDs numOthers _ receipts receipts.length 1
      (by omega) r hr
  · intro i minCount hfail hlow
    simp only [receiptScan]
    rw [if_neg hfail, if_pos hlow]

/-- Witness for C6 (amended): with no watermarks and 2 other participants,
the receipt `{id: 7, count: 1}` is returned and satisfies the newness bound
for its tier. -/
theorem parseReceiptList_spec_wit :
    (⟨7, some 1⟩ : ReceiptData) ∈ parseReceiptList [] 2 [⟨7, some 1⟩] ∧
    1 ≤ countNum (some 1) ∧ (7 : Int) > rctLookup [] (countKey (some 1)) := by
  have hmem : (⟨7, some 1⟩ : ReceiptData) ∈ parseReceiptList [] 2 [⟨7, some 1⟩] := by
    decide
  exact ⟨hmem, (parseReceiptList_spec [] 2 [⟨7, some 1⟩]).1 ⟨7, some 1⟩ hmem⟩

/-- C7: once `promiseOwnMessage` has armed a send and `_observeOwnMessage`
has matched an element (whose tracked `data-local-id` is positive, as it
exceeds the nonnegative watermark):
* the success indicator becoming visible settles the promise by
  `resolve(msgID)` with that element's `data-local-id`;
* the failure indicator becoming visible settles it by `reject(target)`;
* the timeout callback settles it by `reject(null)`;
and on every one of these paths the emitted post-state is the fully reset
one — both visibility observers disconnected and the pending-own-message
fields cleared — since `_resolveOwnMessage`/`_rejectOwnMessage` run
`_promiseOwnMsgReset` before invoking `resolve`/`reject`. -/
theorem ownMessage_settlement (s0 : OwnMsgState) (sel : String)
    (fsel : Option String) (elem : OwnElement) (s2 : OwnMsgState)
    (hobs : observeOwnMessage (promiseOwnMessage s0 sel fsel) elem = (s2, true))
    (hpos : 0 < elem.dataLocalId) :
    (s2.successObs = some elem.dataLocalId ∧ s2.hasResolve = true ∧
      s2.hasReject = true) ∧
    (∀ (changes : List (Nat × Bool)) ch,
      changes.find? (fun c => !c.2) = some ch →
      ownVisibleCallback s2 (some elem.dataLocalId) changes
        = (promiseOwnMsgReset { s2 with timerArmed := false },
           [OwnSettle.resolved elem.dataLocalId])) ∧
    (∀ (changes : List (Nat × Bool)) ch,
      changes.find? (fun c => !c.2) = some ch →
      ownVisibleCallback s2 none changes
        = (promiseOwnMsgReset s2, [OwnSettle.rejected (some ch.1)])) ∧
    (ownTimeoutCallback s2 = (promiseOwnMsgReset s2, [OwnSettle.rejected none])) ∧
    (∀ s : OwnMsgState, (promiseOwnMsgReset s).successObs = none ∧
      (promiseOwnMsgReset s).failureObs = false ∧
      (promiseOwnMsgReset s).hasResolve = false ∧
      (promiseOwnMsgReset s).hasReject = false) := by
  have hstate : s2.successObs = some elem.dataLocalId ∧ s2.hasResolve = true ∧
      s2.hasReject = true := by
    unfold observeOwnMessage promiseOwnMessage at hobs
    cases hst : elem.successTarget with
    | none => simp [hst] at hobs
    | some st =>
      cases hst2 : st.2 with
      | false => simp [hst, hst2] at hobs
      | true =>
        cases fsel with
        | none =>
          simp [hst, hst2] at hobs
          subst hobs
          exact ⟨rfl, rfl, rfl⟩
        | some f =>
          cases hft : elem.failureTarget with
          | none => simp [hst, hst2, hft] at hobs
          | some ft =>
            cases hft2 : ft.2 with
            | false => simp [hst, hst2, hft, hft2] at hobs
            | true =>
              simp [hst, hst2, hft, hft2] at hobs
              subst hobs
              exact ⟨rfl, rfl, rfl⟩
  have htr : msgIDTruthy (some elem.dataLocalId) = true := by
    simp only [msgIDTruthy, bne_iff_ne]
    omega
  refine ⟨hstate, ?_, ?_, ?_, ?_⟩
  · intro changes ch hfind
    simp [ownVisibleCallback, hfind, htr, resolveOwnMessage, hstate.2.1]
  · intro changes ch hfind
    simp [ownVisibleCallback, hfind, msgIDTruthy, rejectOwnMessage, hstate.2.2]
  · simp [ownTimeoutCallback, rejectOwnMessage, hstate.2.2]
  · intro s
    exact ⟨rfl, rfl, rfl, rfl⟩

/-- Witness for C7: from an idle controller, arm a send with success selector
"OK" and no failure selector, match the element with `data-local-id` 1 whose
success indicator is still invisible; a mutation making it visible resolves
with 1, and the timeout path rejects — both leaving the fully cleared
state. -/
theorem ownMessage_settlement_wit :
    ownVisibleCallback ⟨some "OK", none, true, true, true, some 1, false⟩
        (some 1) [(5, false)]
      = (⟨none, none, false, false, false, none, false⟩,
         [OwnSettle.resolved 1]) ∧
    ownTimeoutCallback ⟨some "OK", none, true, true, true, some 1, false⟩
      = (⟨none, none, false, false, true, none, false⟩,
         [OwnSettle.rejected none]) := by
  have h := ownMessage_settlement
    ⟨none, none, false, false, false, none, false⟩ "OK" none
    ⟨1, some (0, true), none⟩
    ⟨some "OK", none, true, true, true, some 1, false⟩
    (by decide) (by decide)
  refine ⟨?_, h.2.2.2.1⟩
  have hs := h.2.1 [(5, false)] (5, false) (by decide)
  exact hs

/-- C1 (code bug): delivery is *not* always strictly ascending.  The rejected
branch of the parse-promise callback (lines 1491-1502) calls `handleMessage`
without checking that the rejected group is at the head of the index, so with
tracked remote elements 1 and 2 (one parse attempt each) and settlement order
"parse of 2 rejects, then parse of 1 rejects", the all-rejected group 2 is
delivered immediately — `handleMessage` shifts off and destroys *group 1* —
and group 1's later rejection then delivers record 1 after record 2.  The
records passed to `__mautrixReceiveMessages` are `[2, 1]`, violating the
in-order contract stated in the code's own comment (line 1392). -/
theorem delivery_order_violated :
    ((obsRun 0 [ObsEvent.arrive 1 1, ObsEvent.arrive 2 2,
        ObsEvent.rejectParse 2 (mkMsg 2),
        ObsEvent.rejectParse 1 (mkMsg 1)]).delivered.map MessageData.id
      = [2, 1]) ∧
    ¬ List.Chain' (· < ·)
      ((obsRun 0 [ObsEvent.arrive 1 1, ObsEvent.arrive 2 2,
          ObsEvent.rejectParse 2 (mkMsg 2),
          ObsEvent.rejectParse 1 (mkMsg 1)]).delivered.map MessageData.id) := by
  have h : (obsRun 0 [ObsEvent.arrive 1 1, ObsEvent.arrive 2 2,
      ObsEvent.rejectParse 2 (mkMsg 2),
      ObsEvent.rejectParse 1 (mkMsg 1)]).delivered.map MessageData.id
      = [2, 1] := by
    simp [obsRun, obsStep, obsInit, arriveRemote, settleReject, settleResolve,
          handleMessage, viewArr, storeGet, storeSet, attemptKey, findMsgsForID,
          findMsgsForIDRec, listInsertAt, dfltGroup, mkMsg, List.lookup]
  refine ⟨h, ?_⟩
  rw [h]
  intro hchain
  have := List.chain'_cons.mp hchain
  omega

/-- C2 (code bug): a group with a resolving attempt can fail to deliver any
record.  With tracked elements 1 and 2 (one attempt each), if the parse of 2
rejects first, the head-unchecked rejection branch delivers group 2 and
destroys group 1's index entry; when the parse of 1 then *resolves*, its
lookup returns -1 and the resolved record is discarded.  Group 1 — which had
a successfully resolved attempt — never delivers, and the total delivery for
the chat is just `[2]`. -/
theorem resolved_group_lost :
    ((obsRun 0 [ObsEvent.arrive 1 1, ObsEvent.arrive 2 2,
        ObsEvent.rejectParse 2 (mkMsg 2),
        ObsEvent.resolveParse 1 (mkMsg 1)]).delivered.map MessageData.id
      = [2]) ∧
    (obsRun 0 [ObsEvent.arrive 1 1, ObsEvent.arrive 2 2,
        ObsEvent.rejectParse 2 (mkMsg 2),
        ObsEvent.resolveParse 1 (mkMsg 1)]).minID = 2 := by
  constructor <;>
  simp [obsRun, obsStep, obsInit, arriveRemote, settleReject, settleResolve,
        handleMessage, viewArr, storeGet, storeSet, attemptKey, findMsgsForID,
        findMsgsForIDRec, listInsertAt, dfltGroup, mkMsg, List.lookup]

/-- C3 (code bug): the watermark `minID` is *not* monotonic.  In the same
two-rejection run as C1, `handleMessage` assigns `minID = messageData.id`
unconditionally; after group 2's premature delivery `minID = 2`, and group
1's subsequent rejection delivery regresses it to 1. -/
theorem minID_regresses :
    (obsRun 0 [ObsEvent.arrive 1 1, ObsEvent.arrive 2 2,
        ObsEvent.rejectParse 2 (mkMsg 2)]).minID = 2 ∧
    (obsRun 0 [ObsEvent.arrive 1 1, ObsEvent.arrive 2 2,
        ObsEvent.rejectParse 2 (mkMsg 2),
        ObsEvent.rejectParse 1 (mkMsg 1)]).minID = 1 ∧
    (1 : Int) < 2 := by
  refine ⟨?_, ?_, by decide⟩ <;>
  simp [obsRun, obsStep, obsInit, arriveRemote, settleReject, settleResolve,
        handleMessage, viewArr, storeGet, storeSet, attemptKey, findMsgsForID,
        findMsgsForIDRec, listInsertAt, dfltGroup, mkMsg, List.lookup]

end Contentscript
